import Mathlib

set_option linter.dupNamespace false

/-!
Verification of the `geocoder` Go package (rate-limited, signed reverse-geocoding
client).  The definitions below are a shallow embedding of the package's source:
pure Go functions become Lean functions, machine words become `Nat` with explicit
reductions mod 2^32, fallible Go functions return `Option`/`Except`, and the
side-effecting call path (`ReverseGeocode`) is embedded as a state-passing
function that also returns the list of observable effects (limiter mutations,
sleeps, observer calls).  Standard-library collaborators used by the source
(`crypto/sha1`, `crypto/hmac`, `encoding/base64`, `net/url` query escaping and
encoding, `encoding/json` decode outcomes) are embedded by their documented
algorithms so that the package's own code can be translated faithfully on top of
them.
-/

namespace Geocoder

/-! ## 32-bit words as naturals (machine arithmetic of `crypto/sha1`) -/

/-- Truncate a natural to a 32-bit word. -/
def w32 (n : Nat) : Nat := n % 4294967296

/-- 32-bit wrapping addition. -/
def wadd (a b : Nat) : Nat := w32 (a + b)

/-- Bitwise XOR (32-bit operands). -/
def wxor (a b : Nat) : Nat := a ^^^ b

/-- Bitwise AND. -/
def wand (a b : Nat) : Nat := a &&& b

/-- Bitwise OR. -/
def wor (a b : Nat) : Nat := a ||| b

/-- Bitwise complement within 32 bits. -/
def wnot (a : Nat) : Nat := a ^^^ 4294967295

/-- Rotate a 32-bit word left by `s` bits. -/
def rotl (s a : Nat) : Nat := w32 ((a <<< s) ||| (a >>> (32 - s)))

/-- The four big-endian bytes of a 32-bit word. -/
def be32 (n : Nat) : List Nat :=
  [(n >>> 24) &&& 255, (n >>> 16) &&& 255, (n >>> 8) &&& 255, n &&& 255]

/-- The eight big-endian bytes of a 64-bit word. -/
def be64 (n : Nat) : List Nat := be32 (n >>> 32) ++ be32 n

/-! ## SHA-1 (the 160-bit hash used by `crypto/sha1`) -/

/-- Merkle–Damgård padding: append `0x80`, zero bytes, and the 64-bit
big-endian bit length, reaching a multiple of 64 bytes. -/
def sha1Pad (msg : List Nat) : List Nat :=
  msg ++ [128] ++ List.replicate ((119 - msg.length % 64) % 64) 0 ++ be64 (msg.length * 8)

/-- Split a byte list into 64-byte chunks (`fuel` bounds the recursion and is
instantiated with the list length). -/
def chunks64 : Nat → List Nat → List (List Nat)
  | 0, _ => []
  | _, [] => []
  | fuel + 1, l => l.take 64 :: chunks64 fuel (l.drop 64)

/-- Group bytes four at a time into big-endian 32-bit words. -/
def beWords : List Nat → List Nat
  | a :: b :: c :: d :: rest => (((a * 256 + b) * 256 + c) * 256 + d) :: beWords rest
  | _ => []

/-- Message-schedule extension, on the reversed word list (newest word first):
`w[i] = rotl1 (w[i-3] xor w[i-8] xor w[i-14] xor w[i-16])`. -/
def extendW : Nat → List Nat → List Nat
  | 0, acc => acc
  | n + 1, acc =>
      extendW n
        (rotl 1 (wxor (wxor (acc.getD 2 0) (acc.getD 7 0))
                      (wxor (acc.getD 13 0) (acc.getD 15 0))) :: acc)

/-- SHA-1 round function, by round index. -/
def sha1F (t b c d : Nat) : Nat :=
  if t < 20 then wor (wand b c) (wand (wnot b) d)
  else if t < 40 then wxor (wxor b c) d
  else if t < 60 then wor (wor (wand b c) (wand b d)) (wand c d)
  else wxor (wxor b c) d

/-- SHA-1 round constants, by round index. -/
def sha1K (t : Nat) : Nat :=
  if t < 20 then 0x5A827999
  else if t < 40 then 0x6ED9EBA1
  else if t < 60 then 0x8F1BBCDC
  else 0xCA62C1D6

/-- The five 32-bit chaining registers of SHA-1. -/
structure Sha1State where
  a : Nat
  b : Nat
  c : Nat
  d : Nat
  e : Nat

/-- Run the 80 SHA-1 rounds over the (index, scheduled word) pairs. -/
def sha1Rounds : List (Nat × Nat) → Sha1State → Sha1State
  | [], st => st
  | (t, wt) :: rest, st =>
      sha1Rounds rest
        ⟨wadd (wadd (wadd (wadd (rotl 5 st.a) (sha1F t st.b st.c st.d)) st.e) (sha1K t)) wt,
         st.a, rotl 30 st.b, st.c, st.d⟩

/-- Compress one 64-byte block into the chaining state. -/
def sha1Block (st : Sha1State) (block : List Nat) : Sha1State :=
  let ws := (extendW 64 (beWords block).reverse).reverse
  let r := sha1Rounds (List.zip (List.range 80) ws) st
  ⟨wadd st.a r.a, wadd st.b r.b, wadd st.c r.c, wadd st.d r.d, wadd st.e r.e⟩

/-- SHA-1 of a byte list, as its 20 digest bytes. -/
def sha1 (msg : List Nat) : List Nat :=
  let padded := sha1Pad msg
  let f := (chunks64 padded.length padded).foldl sha1Block
    ⟨0x67452301, 0xEFCDAB89, 0x98BADCFE, 0x10325476, 0xC3D2E1F0⟩
  be32 f.a ++ be32 f.b ++ be32 f.c ++ be32 f.d ++ be32 f.e

/-! ## HMAC (the keyed construction of `crypto/hmac`, block size 64) -/

/-- HMAC-SHA1 of `msg` under `key`. -/
def hmacSha1 (key msg : List Nat) : List Nat :=
  let k0 := if 64 < key.length then sha1 key else key
  let kpad := k0 ++ List.replicate (64 - k0.length) 0
  sha1 ((kpad.map (fun byte => byte ^^^ 92)) ++ sha1 ((kpad.map (fun byte => byte ^^^ 54)) ++ msg))

/-! ## Base64, standard alphabet (`encoding/base64` `StdEncoding`) -/

/-- The standard base64 alphabet. -/
def b64Alphabet : List Char :=
  "ABCDEFGHIJKLMNOPQRSTUVWXYZabcdefghijklmnopqrstuvwxyz0123456789+/".toList

/-- The alphabet character of a 6-bit value. -/
def b64Char (n : Nat) : Char := b64Alphabet.getD n 'A'

/-- The 6-bit value of an alphabet character, if any (`'='` has none). -/
def b64Val (c : Char) : Option Nat := b64Alphabet.findIdx? (fun x => x = c)

/-- Base64-encode bytes three at a time, emitting `'='` padding on the final
partial group (`fuel` bounds the recursion). -/
def b64EncodeRun : Nat → List Nat → List Char
  | 0, _ => []
  | _, [] => []
  | _ + 1, [a] => [b64Char (a >>> 2), b64Char ((a &&& 3) <<< 4), '=', '=']
  | _ + 1, [a, b] =>
      [b64Char (a >>> 2), b64Char (((a &&& 3) <<< 4) ||| (b >>> 4)),
       b64Char ((b &&& 15) <<< 2), '=']
  | fuel + 1, a :: b :: c :: rest =>
      b64Char (a >>> 2) :: b64Char (((a &&& 3) <<< 4) ||| (b >>> 4)) ::
      b64Char (((b &&& 15) <<< 2) ||| (c >>> 6)) :: b64Char (c &&& 63) ::
      b64EncodeRun fuel rest

/-- Base64-encode a byte list with the standard alphabet, padding included. -/
def b64Encode (bs : List Nat) : String := String.mk (b64EncodeRun bs.length bs)

/-- Base64-decode four characters at a time; `'='` padding is accepted only in
the final group, any other irregularity (stray `'='`, a character outside the
alphabet, a length not a multiple of four) is a decode error, as in
`base64.StdEncoding.DecodeString`. -/
def b64DecodeRun : Nat → List Char → Option (List Nat)
  | _, [] => some []
  | _ + 1, [c1, c2, '=', '='] =>
      match b64Val c1, b64Val c2 with
      | some v1, some v2 => some [((v1 <<< 2) ||| (v2 >>> 4)) &&& 255]
      | _, _ => none
  | _ + 1, [c1, c2, c3, '='] =>
      match b64Val c1, b64Val c2, b64Val c3 with
      | some v1, some v2, some v3 =>
          some [((v1 <<< 2) ||| (v2 >>> 4)) &&& 255, (((v2 &&& 15) <<< 4) ||| (v3 >>> 2)) &&& 255]
      | _, _, _ => none
  | fuel + 1, c1 :: c2 :: c3 :: c4 :: rest =>
      match b64Val c1, b64Val c2, b64Val c3, b64Val c4, b64DecodeRun fuel rest with
      | some v1, some v2, some v3, some v4, some bs =>
          some ((((v1 <<< 2) ||| (v2 >>> 4)) &&& 255) ::
                ((((v2 &&& 15) <<< 4) ||| (v3 >>> 2)) &&& 255) ::
                ((((v3 &&& 3) <<< 6) ||| v4) &&& 255) :: bs)
      | _, _, _, _, _ => none
  | _, _ => none

/-- Base64-decode a string with the standard alphabet. -/
def b64Decode (s : String) : Option (List Nat) := b64DecodeRun s.toList.length s.toList

/-! ## UTF-8 bytes of a string -/

/-- The UTF-8 bytes of one character. -/
def utf8Bytes (c : Char) : List Nat :=
  let n := c.toNat
  if n < 128 then [n]
  else if n < 2048 then [192 ||| (n >>> 6), 128 ||| (n &&& 63)]
  else if n < 65536 then
    [224 ||| (n >>> 12), 128 ||| ((n >>> 6) &&& 63), 128 ||| (n &&& 63)]
  else
    [240 ||| (n >>> 18), 128 ||| ((n >>> 12) &&& 63), 128 ||| ((n >>> 6) &&& 63),
     128 ||| (n &&& 63)]

/-- The UTF-8 bytes of a string (what `[]byte(s)` yields in Go). -/
def strBytes (s : String) : List Nat := List.flatten (s.toList.map utf8Bytes)

/-! ## The signing function (`getSignature` in both source variants) -/

/-- `strings.ReplaceAll(·, "-", "+")` then `strings.ReplaceAll(·, "_", "/")`,
which for these single-character patterns is a character map. -/
def keyToStdAlphabet (s : String) : String :=
  String.mk (s.toList.map (fun c => if c = '-' then '+' else if c = '_' then '/' else c))

/-- `strings.ReplaceAll(·, "+", "-")` then `strings.ReplaceAll(·, "/", "_")`
applied to the encoded digest. -/
def digestToUrlSafe (s : String) : String :=
  String.mk (s.toList.map (fun c => if c = '+' then '-' else if c = '/' then '_' else c))

/-- `Geocoder.getSignature`: translate the signing key from the URL-safe to the
standard base64 alphabet, decode it (an undecodable key is an error and yields
no signature), HMAC-SHA1 the UTF-8 bytes of `targetURL` under the decoded key,
base64-encode the digest with the standard alphabet and translate it to the
URL-safe alphabet, keeping padding. -/
def getSignature (signingKey targetURL : String) : Option String :=
  match b64Decode (keyToStdAlphabet signingKey) with
  | none => none
  | some keyBytes => some (digestToUrlSafe (b64Encode (hmacSha1 keyBytes (strBytes targetURL))))

/-- Modelled from the spec: the reference signer of spec section 4.2,
`sign(path, query, secretKeyBase64url)` — normalize the key to the standard
alphabet, base64-decode it (failure is terminal), HMAC with a 160-bit hash over
the UTF-8 bytes of `path + "?" + query`, base64-encode with the standard
alphabet and translate to the URL-safe alphabet without stripping padding. -/
def signSpec (path query secretKeyBase64url : String) : Option String :=
  match b64Decode (keyToStdAlphabet secretKeyBase64url) with
  | none => none
  | some keyBytes =>
      some (digestToUrlSafe (b64Encode (hmacSha1 keyBytes (strBytes (path ++ "?" ++ query)))))

end Geocoder

namespace Geocoder

/-! ## Percent-encoding (`net/url` `QueryEscape`) -/

/-- An uppercase hexadecimal digit. -/
def hexDigitU (n : Nat) : Char := "0123456789ABCDEF".toList.getD n '0'

/-- Whether `QueryEscape` escapes this character: everything except ASCII
alphanumerics and `-`, `_`, `.`, `~`. -/
def shouldEscapeQ (c : Char) : Bool :=
  !(c.isAlphanum || c = '-' || c = '_' || c = '.' || c = '~')

/-- Escape one character for a query component: kept verbatim if unreserved,
space becomes `+`, every other UTF-8 byte becomes `%XX` with uppercase hex. -/
def escapeChar (c : Char) : List Char :=
  if !(shouldEscapeQ c) then [c]
  else if c = ' ' then ['+']
  else List.flatten ((utf8Bytes c).map (fun byte => ['%', hexDigitU (byte / 16), hexDigitU (byte % 16)]))

/-- `url.QueryEscape`. -/
def queryEscape (s : String) : String := String.mk (List.flatten (s.toList.map escapeChar))

/-! ## Fixed-point coordinate formatting (`fmt.Sprintf "%.8f"`)

Coordinates are embedded as fixed-point integers in units of `1e-8` — the
exact decimal that `%.8f` prints; this replaces `float64` by its printed
scaled-decimal reading, the only view of a coordinate the package ever uses. -/

/-- A decimal digit character. -/
def digitChar (d : Nat) : Char := "0123456789".toList.getD d '0'

/-- Decimal digits of a natural number, most significant first (`fuel` bounds
the recursion and is instantiated with `n + 1`). -/
def natDigits : Nat → Nat → List Char
  | 0, _ => []
  | fuel + 1, n => if n < 10 then [digitChar n] else natDigits fuel (n / 10) ++ [digitChar (n % 10)]

/-- Decimal rendering of a natural number. -/
def natRepr (n : Nat) : String := String.mk (natDigits (n + 1) n)

/-- The fractional part: `n < 10^8` zero-padded on the left to 8 digits. -/
def pad8 (n : Nat) : String :=
  String.mk ((("00000000".toList ++ (natRepr n).toList).reverse.take 8).reverse)

/-- `fmt.Sprintf "%.8f"` on the scaled-decimal coordinate `n / 10^8`. -/
def fmt8 (n : Int) : String :=
  (if n < 0 then "-" else "") ++ natRepr (n.natAbs / 100000000) ++ "." ++ pad8 (n.natAbs % 100000000)

/-! ## Sorted query encoding (`url.Values` and its `Encode`) -/

/-- Byte-wise lexicographic strict order on character lists, as Go compares
strings (UTF-8 byte order coincides with code-point order). -/
def lexLt : List Char → List Char → Bool
  | _, [] => false
  | [], _ :: _ => true
  | a :: as, b :: bs =>
      if a.toNat < b.toNat then true else if b.toNat < a.toNat then false else lexLt as bs

/-- Strict string order used to sort `url.Values` keys. -/
def strLtB (a b : String) : Bool := lexLt a.toList b.toList

/-- The reflexive closure of `strLtB`. -/
def strLeB (a b : String) : Bool := !(strLtB b a)

/-- Insert a parameter into a key-sorted parameter list. -/
def insertSorted (p : String × String) :
    List (String × String) → List (String × String)
  | [] => [p]
  | q :: rest => if strLtB p.1 q.1 then p :: q :: rest else q :: insertSorted p rest

/-- Sort a parameter list by key (each key occurs once in this package, so the
grouping `url.Values` performs is the identity). -/
def sortByKey : List (String × String) → List (String × String)
  | [] => []
  | p :: rest => insertSorted p (sortByKey rest)

/-- Join encoded parameters with `&`. -/
def joinAmp : List String → String
  | [] => ""
  | [s] => s
  | s :: rest => s ++ "&" ++ joinAmp rest

/-- `url.Values.Encode`: serialize the parameters in ascending key order, each
as `key=value` with both sides query-escaped, joined by `&`. -/
def encodeQuery (ps : List (String × String)) : String :=
  joinAmp ((sortByKey ps).map (fun p => queryEscape p.1 ++ "=" ++ queryEscape p.2))

/-! ## URLs (`net/url` `Parse` and `URL.String`, for the shapes this package
builds: an absolute `scheme://host/path` or a rooted path, no user info, no
fragment, and a query that the builder overwrites) -/

/-- A parsed URL, reduced to the fields the package reads and writes. -/
structure URL where
  schemeHost : String
  path : String
  rawQuery : String
deriving DecidableEq

/-- Split off the `scheme://` prefix (returned with its marker), if present. -/
def splitSchemeMarker : List Char → Option (List Char × List Char)
  | [] => none
  | ':' :: '/' :: '/' :: rest => some ([':', '/', '/'], rest)
  | c :: rest =>
      match splitSchemeMarker rest with
      | none => none
      | some (pre, post) => some (c :: pre, post)

/-- Split a host-and-path character list at the first `/`. -/
def splitAtSlash : List Char → List Char × List Char
  | [] => ([], [])
  | '/' :: rest => ([], '/' :: rest)
  | c :: rest => ((splitAtSlash rest).1.cons c, (splitAtSlash rest).2)

/-- `url.Parse` for the URL shapes the package feeds it: scheme and host kept
together, path up to any `?`, query discarded (the builder overwrites it). -/
def urlParse (s : String) : URL :=
  match splitSchemeMarker s.toList with
  | some (pre, rest) =>
      ⟨String.mk (pre ++ (splitAtSlash rest).1),
       String.mk ((splitAtSlash rest).2.takeWhile (fun c => c ≠ '?')), ""⟩
  | none => ⟨"", String.mk (s.toList.takeWhile (fun c => c ≠ '?')), ""⟩

/-- `URL.String` for the shapes built here (the query is never empty). -/
def urlString (u : URL) : String := u.schemeHost ++ u.path ++ "?" ++ u.rawQuery

/-! ## The data model (`types.go`); coordinates as scaled-decimal integers -/

/-- Google business credentials. -/
structure BusinessKey where
  clientID : String
  signingKey : String
  channel : String
deriving DecidableEq

/-- `type GoogleResponseStatus string`. -/
abbrev GoogleResponseStatus := String

/-- Status constant. -/
def GRS_ZERO_RESULTS : GoogleResponseStatus := "ZERO_RESULTS"

/-- Status constant. -/
def GRS_REQUEST_DENIED : GoogleResponseStatus := "REQUEST_DENIED"

/-- Status constant. -/
def GRS_INVALID_REQUEST : GoogleResponseStatus := "INVALID_REQUEST"

/-- Status constant. -/
def GRS_UNKNOWN_ERROR : GoogleResponseStatus := "UNKNOWN_ERROR"

/-- Status constant. -/
def GRS_OVER_QUERY_LIMIT : GoogleResponseStatus := "OVER_QUERY_LIMIT"

/-- Status constant. -/
def GRS_OK : GoogleResponseStatus := "OK"

/-- One address component of a result. -/
structure AddressComponent where
  longName : String
  shortName : String
  types : List String
deriving DecidableEq

/-- A latitude/longitude pair (scaled-decimal embedding of `float64`). -/
structure Coordinate where
  lat : Int
  lng : Int
deriving DecidableEq

/-- Result geometry. -/
structure Geometry where
  location : Coordinate
  locationType : String
deriving DecidableEq

/-- One geocoding result. -/
structure ResultSet where
  addressComponents : List AddressComponent
  formattedAddress : String
  geometry : Geometry
  placeID : String
  types : List String
deriving DecidableEq

/-- The decoded provider response. -/
structure GoogleResponse where
  results : List ResultSet
  status : GoogleResponseStatus
deriving DecidableEq

/-! ## The client (`geoc.go` and its `url.Values` variant)

Effectful collaborators are embedded as data: the injected transport is a
function from the target URL to an error or a body; a body is embedded by its
`encoding/json` decode outcome into `*GoogleResponse` (malformed, the literal
`null` which decodes to a nil pointer without error, or a response value); the
limiter is its mutable rate and fixed burst; and a call returns, besides its
result, the successor client state and the list of observable side effects. -/

/-- The error values a call can surface: context cancellation while waiting on
the limiter, a signing-key base64 decode error, a transport error (carried
verbatim), or a JSON decode error. -/
inductive Err where
  | canceled : Err
  | keyDecode : Err
  | transport : String → Err
  | decodeFailed : Err
deriving DecidableEq

/-- A response body, by its `encoding/json` decode outcome into
`*GoogleResponse`: not valid JSON for the schema, the literal `null` (which
decodes into a nil pointer with no error), or a decoded response. -/
inductive Body where
  | malformed : Body
  | jnull : Body
  | jresp : GoogleResponse → Body
deriving DecidableEq

/-- `json.NewDecoder(resp.Body).Decode(&res)` with `res : *GoogleResponse`:
`none` is a decode error, `some none` is a successful decode leaving the nil
pointer, `some (some r)` is a successful decode of `r`. -/
def decodeBody : Body → Option (Option GoogleResponse)
  | .malformed => none
  | .jnull => some none
  | .jresp r => some (some r)

/-- `rate.Limiter`, reduced to the fields the package touches: the limit set by
`SetLimit` and the burst fixed at construction. -/
structure Limiter where
  limit : Int
  burst : Nat
deriving DecidableEq

/-- The `Geocoder` client state. -/
structure Geocoder where
  businessKey : Option BusinessKey
  baseURL : String
  language : String
  client : String → Except Err Body
  rps : Int
  overQuerySleepDuration : Nat
  observer : Bool
  limiter : Limiter

/-- The outcome of running a call body: a nil-pointer panic, an error return,
or a value. -/
inductive Res (α : Type) where
  | panics : Res α
  | fails : Err → Res α
  | ok : α → Res α
deriving DecidableEq

/-- The observable side effects of one call: limiter rate mutations, the
cooldown sleep, and the observation hook. -/
inductive Event where
  | setLimit : Int → Event
  | sleep : Nat → Event
  | observe : String → Event
deriving DecidableEq

/-- Whether an event is a limiter rate mutation. -/
def isSetLimit : Event → Bool
  | .setLimit _ => true
  | _ => false

/-- The limiter rate mutations among a call trace. -/
def rateEvents (evs : List Event) : List Event := evs.filter isSetLimit

/-- The observation events a call with a successful transport emits. -/
def obsEvents (g : Geocoder) : List Event :=
  if g.observer then [Event.observe "google"] else []

/-- `g.limiter.SetLimit(l)`. -/
def setRate (g : Geocoder) (l : Int) : Geocoder :=
  { g with limiter := ⟨l, g.limiter.burst⟩ }

/-- `NewGeocoder`: validate the arguments in source order and build the client
with a fresh `rate.NewLimiter(rate.Limit(requestPerSecond), 1)`.  Every branch
returns; no argument combination panics. -/
def NewGeocoder (bkey : Option BusinessKey) (baseURL language : String)
    (client : Option (String → Except Err Body)) (requestPerSecond : Int)
    (overQuerySleepDuration : Nat) (observer : Bool) : Except String Geocoder :=
  match bkey with
  | none => .error "empty BusinessKey"
  | some _ =>
      if baseURL = "" then
        .error "empty baseURL, use https://maps.googleapis.com/maps/api/geocode/json"
      else
        match client with
        | none => .error "empty HTTPClient"
        | some c =>
            if requestPerSecond ≤ 0 then
              .error "requestPerSecond must be a positive number"
            else
              .ok ⟨bkey, baseURL, language, c, requestPerSecond, overQuerySleepDuration,
                   observer, ⟨requestPerSecond, 1⟩⟩

/-- The parameters `buildURL` adds to `url.Values` before signing, in `Add`
order: `latlng`, `sensor=false`, `language` if configured non-empty, and from
a present business key `client` and, if non-empty, `channel`. -/
def baseParams (g : Geocoder) (lat lng : Int) : List (String × String) :=
  [("latlng", fmt8 lat ++ "," ++ fmt8 lng), ("sensor", "false")]
    ++ (if g.language ≠ "" then [("language", g.language)] else [])
    ++ (match g.businessKey with
        | some bk =>
            ("client", bk.clientID) :: (if bk.channel ≠ "" then [("channel", bk.channel)] else [])
        | none => [])

/-- `buildURL` of the `url.Values` variant: parse the base URL, encode the
sorted canonical query, sign `path + "?" + rawQuery` with the business key
(dereferenced unconditionally, so a nil key panics here), then add the
`signature` parameter and re-encode. -/
def buildURL (g : Geocoder) (lat lng : Int) : Res URL :=
  match g.businessKey with
  | none => .panics
  | some bk =>
      match getSignature bk.signingKey
        ((urlParse g.baseURL).path ++ "?" ++ encodeQuery (baseParams g lat lng)) with
      | none => .fails .keyDecode
      | some sig =>
          .ok ⟨(urlParse g.baseURL).schemeHost, (urlParse g.baseURL).path,
               encodeQuery (baseParams g lat lng ++ [("signature", sig)])⟩

/-- `ReverseGeocode`: wait on the limiter (`ctxCanceled` is the outcome of
`limiter.Wait` — `true` when the context fired first), build and sign the URL,
issue the GET through the injected transport surfacing its error verbatim,
report to the observer when one is configured, decode the body, and on an
`OVER_QUERY_LIMIT` status run the cooldown (rate to 0, sleep, rate back to
`rps`) before returning the decoded response as a successful call. -/
def ReverseGeocode (g : Geocoder) (ctxCanceled : Bool) (lat lng : Int) :
    Res GoogleResponse × Geocoder × List Event :=
  if ctxCanceled then (.fails .canceled, g, [])
  else
    match buildURL g lat lng with
    | .panics => (.panics, g, [])
    | .fails e => (.fails e, g, [])
    | .ok ur =>
        match g.client (urlString ur) with
        | .error e => (.fails e, g, [])
        | .ok body =>
            match decodeBody body with
            | none => (.fails .decodeFailed, g, obsEvents g)
            | some none => (.panics, g, obsEvents g)
            | some (some res) =>
                if res.status = GRS_OVER_QUERY_LIMIT then
                  (.ok res, setRate g g.rps,
                   obsEvents g ++
                     [.setLimit 0, .sleep g.overQuerySleepDuration, .setLimit g.rps])
                else (.ok res, g, obsEvents g)

/-- The client states reachable from construction by any sequence of calls. -/
inductive Reachable : Geocoder → Prop where
  | init (bkey : Option BusinessKey) (baseURL language : String)
      (client : Option (String → Except Err Body)) (rps : Int) (d : Nat) (obs : Bool)
      (g : Geocoder) :
      NewGeocoder bkey baseURL language client rps d obs = .ok g → Reachable g
  | step (g : Geocoder) (ctx : Bool) (lat lng : Int) :
      Reachable g → Reachable (ReverseGeocode g ctx lat lng).2.1

end Geocoder

namespace Geocoder.Legacy

/-- `buildURL` of `src/geoc.go`: plain string concatenation in insertion order
`latlng`, `sensor`, `language`, `client`, `channel`, with the `latlng` value
unescaped and no signature (the caller appends it). -/
def buildURL (g : Geocoder) (lat lng : Int) : String :=
  g.baseURL ++ "?latlng=" ++ fmt8 lat ++ "," ++ fmt8 lng ++ "&sensor=false"
    ++ (if g.language ≠ "" then "&language=" ++ queryEscape g.language else "")
    ++ (match g.businessKey with
        | some bk =>
            "&client=" ++ queryEscape bk.clientID
              ++ (if bk.channel ≠ "" then "&channel=" ++ queryEscape bk.channel else "")
        | none => "")

end Geocoder.Legacy

namespace Geocoder

/-! ## Reading a query back off a URL string -/

/-- The characters after the first `?`. -/
def afterQm : List Char → List Char
  | [] => []
  | '?' :: rest => rest
  | _ :: rest => afterQm rest

/-- Split a character list on `&`. -/
def splitAmp : List Char → List (List Char)
  | [] => [[]]
  | '&' :: rest => [] :: splitAmp rest
  | c :: rest =>
      match splitAmp rest with
      | [] => [[c]]
      | grp :: grps => (c :: grp) :: grps

/-- The parameter keys of a URL string, in transmitted order. -/
def queryKeys (s : String) : List String :=
  (splitAmp (afterQm s.toList)).map (fun l => String.mk (l.takeWhile (fun c => c ≠ '=')))

/-! ## Concrete fixtures (from the package's own tests) -/

/-- The business key of the test fixtures. -/
def bkeyFix : BusinessKey := ⟨"my_test_client", "bXlfdGVzdF9rZXk=", "grg-local"⟩

/-- An empty response carrying `OVER_QUERY_LIMIT`. -/
def respOQL : GoogleResponse := ⟨[], GRS_OVER_QUERY_LIMIT⟩

/-- An empty response carrying `OK`. -/
def respOK : GoogleResponse := ⟨[], GRS_OK⟩

/-- The test-fixture client with a transport answering `respOQL`. -/
def gOQL : Geocoder :=
  ⟨some bkeyFix, "https://maps.googleapis.com/maps/api/geocode/json", "en",
   fun _ => .ok (.jresp respOQL), 5, 100000000, false, ⟨5, 1⟩⟩

/-- The test-fixture client with a transport answering `respOK`. -/
def gOK : Geocoder :=
  ⟨some bkeyFix, "https://maps.googleapis.com/maps/api/geocode/json", "en",
   fun _ => .ok (.jresp respOK), 5, 100000000, false, ⟨5, 1⟩⟩

/-- The test-fixture client with a failing transport. -/
def gFail : Geocoder :=
  ⟨some bkeyFix, "https://maps.googleapis.com/maps/api/geocode/json", "en",
   fun _ => .error (.transport "failed"), 5, 100000000, false, ⟨5, 1⟩⟩

/-- The test-fixture client with a transport answering the JSON literal
`null`. -/
def gNull : Geocoder :=
  ⟨some bkeyFix, "https://maps.googleapis.com/maps/api/geocode/json", "en",
   fun _ => .ok .jnull, 5, 100000000, false, ⟨5, 1⟩⟩

/-- A client configured with credentials whose channel is empty and no
language. -/
def gNoChannel : Geocoder :=
  ⟨some ⟨"cid", "bXlfdGVzdF9rZXk=", ""⟩, "https://maps.googleapis.com/maps/api/geocode/json",
   "", fun _ => .ok (.jresp respOK), 5, 100000000, false, ⟨5, 1⟩⟩

/-- The canonical (pre-signature) query of the test fixture at
`(45.32, 12.67)`. -/
def canonQFix : String :=
  "channel=grg-local&client=my_test_client&language=en&latlng=45.32000000%2C12.67000000&sensor=false"

/-- The signature of the test fixture (the literal the package's own test
expects). -/
def sigFix : String := "bdwh-bmlibC2w2N_A2tgt7pSuAE="

/-- The transmitted query of the test fixture, signature appended last. -/
def fullQFix : String := canonQFix ++ "&signature=" ++ "bdwh-bmlibC2w2N_A2tgt7pSuAE%3D"

/-- The URL the test fixture builds. -/
def urFix : URL := ⟨"https://maps.googleapis.com", "/maps/api/geocode/json", fullQFix⟩

/-- The canonical query of the empty-channel client at `(0, 0)`. -/
def canonQNoCh : String := "client=cid&latlng=0.00000000%2C0.00000000&sensor=false"

/-- The signature of the empty-channel client's query. -/
def sigNoCh : String := "sGCyk5RcrmuuVg3k0L3y8ZoWmVo="

/-- The transmitted query of the empty-channel client. -/
def fullQNoCh : String := canonQNoCh ++ "&signature=" ++ "sGCyk5RcrmuuVg3k0L3y8ZoWmVo%3D"

/-- The URL the empty-channel client builds. -/
def urNoCh : URL := ⟨"https://maps.googleapis.com", "/maps/api/geocode/json", fullQNoCh⟩

/-- The number of characters after the first `.` — the count of decimal
digits of a formatted coordinate. -/
def fracLen (s : String) : Nat :=
  ((s.toList.dropWhile (fun c => c != '.')).drop 1).length

/-! # Lemmas -/

/-- String concatenation concatenates the character lists. -/
theorem toList_append (a b : String) : (a ++ b).toList = a.toList ++ b.toList := by
  cases a
  cases b
  rfl

/-- `buildURL` on a client with credentials and a decodable signing key:
the result URL carries the parsed base URL and the canonical query extended
with the computed signature. -/
theorem buildURL_eq (g : Geocoder) (bk : BusinessKey) (lat lng : Int) (sig : String)
    (hbk : g.businessKey = some bk)
    (hs : getSignature bk.signingKey
        ((urlParse g.baseURL).path ++ "?" ++ encodeQuery (baseParams g lat lng)) = some sig) :
    buildURL g lat lng =
      .ok ⟨(urlParse g.baseURL).schemeHost, (urlParse g.baseURL).path,
           encodeQuery (baseParams g lat lng ++ [("signature", sig)])⟩ := by
  unfold buildURL
  simp only [hbk]
  rw [hs]

/-- `buildURL` reads only the credentials, base URL and language of the
client. -/
theorem buildURL_ext (g g' : Geocoder) (lat lng : Int)
    (h1 : g.businessKey = g'.businessKey) (h2 : g.baseURL = g'.baseURL)
    (h3 : g.language = g'.language) :
    buildURL g lat lng = buildURL g' lat lng := by
  unfold buildURL baseParams
  rw [h1, h2, h3]

/-- A call that reaches decoding with a decoded (non-nil) response returns it
as a success, and runs the cooldown sequence — limit to `0`, sleep, limit back
to `rps` — exactly when the decoded status is `OVER_QUERY_LIMIT`. -/
theorem ReverseGeocode_decoded (g : Geocoder) (lat lng : Int) (ur : URL) (body : Body)
    (res : GoogleResponse)
    (hb : buildURL g lat lng = Res.ok ur)
    (hg : g.client (urlString ur) = Except.ok body)
    (hd : decodeBody body = some (some res)) :
    ReverseGeocode g false lat lng =
      (Res.ok res,
       if res.status = GRS_OVER_QUERY_LIMIT then setRate g g.rps else g,
       obsEvents g ++
         (if res.status = GRS_OVER_QUERY_LIMIT then
            [Event.setLimit 0, Event.sleep g.overQuerySleepDuration, Event.setLimit g.rps]
          else [])) := by
  unfold ReverseGeocode
  simp only [Bool.false_eq_true, if_false, hb, hg, hd]
  by_cases hst : res.status = GRS_OVER_QUERY_LIMIT
  · simp [hst]
  · simp [hst]

/-- A call whose transport fails returns that error with no events and the
state unchanged. -/
theorem ReverseGeocode_transport_err (g : Geocoder) (lat lng : Int) (ur : URL) (e : Err)
    (hb : buildURL g lat lng = Res.ok ur)
    (hg : g.client (urlString ur) = Except.error e) :
    ReverseGeocode g false lat lng = (Res.fails e, g, []) := by
  unfold ReverseGeocode
  simp only [Bool.false_eq_true, if_false, hb, hg]

/-- A call whose body decodes to the nil pointer dereferences it. -/
theorem ReverseGeocode_nil_decode (g : Geocoder) (lat lng : Int) (ur : URL)
    (hb : buildURL g lat lng = Res.ok ur)
    (hg : g.client (urlString ur) = Except.ok Body.jnull) :
    ReverseGeocode g false lat lng = (Res.panics, g, obsEvents g) := by
  unfold ReverseGeocode
  simp only [Bool.false_eq_true, if_false, hb, hg, decodeBody]

set_option maxRecDepth 100000 in
/-- The canonical query of the test fixture. -/
theorem canonQ_eval : encodeQuery (baseParams gOQL 4532000000 1267000000) = canonQFix := by
  rfl

set_option maxRecDepth 100000 in
/-- The fixture signature (the value the package's own test expects). -/
theorem sig_eval :
    getSignature "bXlfdGVzdF9rZXk=" ("/maps/api/geocode/json" ++ "?" ++ canonQFix) =
      some sigFix := by
  rfl

set_option maxRecDepth 100000 in
/-- Appending the signature parameter and re-encoding yields the transmitted
query of the test fixture. -/
theorem fullQ_eval :
    encodeQuery (baseParams gOQL 4532000000 1267000000 ++ [("signature", sigFix)]) = fullQFix := by
  rfl

/-- The test fixture builds exactly the URL its test expects. -/
theorem buildURL_gOQL : buildURL gOQL 4532000000 1267000000 = Res.ok urFix := by
  have h := buildURL_eq gOQL bkeyFix 4532000000 1267000000 sigFix rfl
    (by rw [show (urlParse gOQL.baseURL).path = "/maps/api/geocode/json" from rfl, canonQ_eval]
        exact sig_eval)
  rw [h, fullQ_eval]
  rfl

/-- The failing-transport fixture builds the same URL. -/
theorem buildURL_gFail : buildURL gFail 4532000000 1267000000 = Res.ok urFix := by
  rw [buildURL_ext gFail gOQL 4532000000 1267000000 rfl rfl rfl]
  exact buildURL_gOQL

/-- The null-body fixture builds the same URL. -/
theorem buildURL_gNull : buildURL gNull 4532000000 1267000000 = Res.ok urFix := by
  rw [buildURL_ext gNull gOQL 4532000000 1267000000 rfl rfl rfl]
  exact buildURL_gOQL

set_option maxRecDepth 100000 in
/-- The canonical query of the empty-channel client. -/
theorem canonQNoCh_eval : encodeQuery (baseParams gNoChannel 0 0) = canonQNoCh := by
  rfl

set_option maxRecDepth 100000 in
/-- The signature of the empty-channel client's canonical string. -/
theorem sigNoCh_eval :
    getSignature "bXlfdGVzdF9rZXk=" ("/maps/api/geocode/json" ++ "?" ++ canonQNoCh) =
      some sigNoCh := by
  rfl

set_option maxRecDepth 100000 in
/-- The transmitted query of the empty-channel client. -/
theorem fullQNoCh_eval :
    encodeQuery (baseParams gNoChannel 0 0 ++ [("signature", sigNoCh)]) = fullQNoCh := by
  rfl

/-- The empty-channel client's built URL. -/
theorem buildURL_gNoChannel : buildURL gNoChannel 0 0 = Res.ok urNoCh := by
  have h := buildURL_eq gNoChannel ⟨"cid", "bXlfdGVzdF9rZXk=", ""⟩ 0 0 sigNoCh rfl
    (by rw [show (urlParse gNoChannel.baseURL).path = "/maps/api/geocode/json" from rfl,
            canonQNoCh_eval]
        exact sigNoCh_eval)
  rw [h, fullQNoCh_eval]
  rfl

/-! # Claim theorems -/

set_option maxRecDepth 100000 in
/-- C1: `getSignature` equals the reference signer of the spec as an
error-or-value function — URL-safe to standard alphabet on the key,
base64-decode (an error yields no signature), HMAC-SHA1 over the UTF-8 bytes
of `path + "?" + query`, standard-alphabet base64 of the digest translated to
the URL-safe alphabet with padding kept — and on the fixture key
`bXlfdGVzdF9rZXk=` and the fixture path+query it returns exactly
`fGNFKf3Yt6Syb9dRF42E7vm1FwM=`. -/
theorem getSignature_meets_spec :
    (∀ secretKey path query : String,
        getSignature secretKey (path ++ "?" ++ query) = signSpec path query secretKey) ∧
    getSignature "bXlfdGVzdF9rZXk="
        "/maps/api/geocode/xml?latlng=49.17584440,7.30196070&sensor=false&client=my_test_client&channel=grg-local" =
      some "fGNFKf3Yt6Syb9dRF42E7vm1FwM=" :=
  ⟨fun _ _ _ => rfl, by rfl⟩

/-- C5: `NewGeocoder` returns a validation error exactly when the credentials
are nil, the base URL is empty, the transport is nil, or the rate is
non-positive; on every other argument combination it returns a client (it is a
total function, so no input panics). -/
theorem NewGeocoder_validation (bkey : Option BusinessKey) (baseURL language : String)
    (client : Option (String → Except Err Body)) (rps : Int) (d : Nat) (obs : Bool) :
    ((∃ e, NewGeocoder bkey baseURL language client rps d obs = Except.error e) ↔
        (bkey = none ∨ baseURL = "" ∨ client = none ∨ rps ≤ 0)) ∧
    (¬(bkey = none ∨ baseURL = "" ∨ client = none ∨ rps ≤ 0) →
        ∃ g, NewGeocoder bkey baseURL language client rps d obs = Except.ok g) := by
  unfold NewGeocoder
  cases bkey <;> cases client <;> by_cases hU : baseURL = "" <;> by_cases hr : rps ≤ 0 <;>
    simp [hU, hr]

/-- C5 witness: a nil transport at a concrete input yields an error. -/
theorem NewGeocoder_validation_witness :
    ∃ e, NewGeocoder (some bkeyFix) "https://maps.googleapis.com/maps/api/geocode/json" "en"
        none 5 100000000 false = Except.error e :=
  (NewGeocoder_validation (some bkeyFix) "https://maps.googleapis.com/maps/api/geocode/json"
    "en" none 5 100000000 false).1.2 (Or.inr (Or.inr (Or.inl rfl)))

/-- C6 witness: at the test fixture, the `OVER_QUERY_LIMIT` response is
returned as a success and the cooldown trace is exactly rate to `0`, sleep,
rate back to `5`. -/
theorem ReverseGeocode_decoded_witness :
    ReverseGeocode gOQL false 4532000000 1267000000 =
      (Res.ok respOQL, setRate gOQL 5,
       [Event.setLimit 0, Event.sleep 100000000, Event.setLimit 5]) := by
  have h := ReverseGeocode_decoded gOQL 4532000000 1267000000 urFix (Body.jresp respOQL)
    respOQL buildURL_gOQL rfl rfl
  simpa [respOQL, GRS_OVER_QUERY_LIMIT, obsEvents, gOQL] using h

/-- C7 witness: the failing-transport fixture surfaces its error verbatim,
with no events and no state change. -/
theorem ReverseGeocode_transport_err_witness :
    ReverseGeocode gFail false 4532000000 1267000000 =
      (Res.fails (Err.transport "failed"), gFail, []) :=
  ReverseGeocode_transport_err gFail 4532000000 1267000000 urFix (Err.transport "failed")
    buildURL_gFail rfl

/-- C10: the JSON literal `null` decodes without error to a nil response, and
the fixture call on such a body dereferences the nil pointer — the call
panics instead of returning a decode error or a response. -/
theorem nil_json_decode_panics :
    decodeBody Body.jnull = some none ∧
    ReverseGeocode gNull false 4532000000 1267000000 = (Res.panics, gNull, []) := by
  refine ⟨rfl, ?_⟩
  have h := ReverseGeocode_nil_decode gNull 4532000000 1267000000 urFix buildURL_gNull rfl
  simpa [obsEvents, gNull] using h

/-- C4 counterexample: a configuration whose channel is empty still sends the
`client` parameter — the transmitted query's keys are `client`, `latlng`,
`sensor`, `signature`. -/
theorem client_present_without_channel :
    gNoChannel.businessKey = some ⟨"cid", "bXlfdGVzdF9rZXk=", ""⟩ ∧
    buildURL gNoChannel 0 0 = Res.ok urNoCh ∧
    queryKeys (urlString urNoCh) = ["client", "latlng", "sensor", "signature"] := by
  refine ⟨rfl, buildURL_gNoChannel, ?_⟩
  rfl

/-- C4 (amended): with nil credentials neither `client` nor `channel` is among
the parameters (and the builder panics before producing a URL); with
credentials present, `client` is always among the parameters, and `channel` is
exactly when the configured channel is non-empty. -/
theorem client_channel_presence (g : Geocoder) (lat lng : Int) :
    (g.businessKey = none →
        (∀ v, ("client", v) ∉ baseParams g lat lng) ∧
        (∀ v, ("channel", v) ∉ baseParams g lat lng) ∧
        buildURL g lat lng = Res.panics) ∧
    (∀ bk, g.businessKey = some bk →
        ("client", bk.clientID) ∈ baseParams g lat lng ∧
        ((∃ v, ("channel", v) ∈ baseParams g lat lng) ↔ bk.channel ≠ "")) := by
  constructor
  · intro hbk
    refine ⟨?_, ?_, ?_⟩
    · intro v
      by_cases hl : g.language = "" <;> simp [baseParams, hbk, hl]
    · intro v
      by_cases hl : g.language = "" <;> simp [baseParams, hbk, hl]
    · unfold buildURL
      simp only [hbk]
  · intro bk hbk
    constructor
    · by_cases hl : g.language = "" <;> by_cases hch : bk.channel = "" <;>
        simp [baseParams, hbk, hl, hch]
    · by_cases hl : g.language = "" <;> by_cases hch : bk.channel = "" <;>
        simp [baseParams, hbk, hl, hch]

/-- C4 witness: the empty-channel client sends `client` and no `channel`. -/
theorem client_channel_presence_witness :
    ("client", (⟨"cid", "bXlfdGVzdF9rZXk=", ""⟩ : BusinessKey).clientID) ∈
        baseParams gNoChannel 0 0 ∧
    ((∃ v, ("channel", v) ∈ baseParams gNoChannel 0 0) ↔
        (⟨"cid", "bXlfdGVzdF9rZXk=", ""⟩ : BusinessKey).channel ≠ "") :=
  (client_channel_presence gNoChannel 0 0).2 ⟨"cid", "bXlfdGVzdF9rZXk=", ""⟩ rfl

/-! ## Order and permutation facts about the query serialization -/

/-- The byte-wise lexicographic order is asymmetric. -/
theorem lexLt_asymm : ∀ a b : List Char, lexLt a b = true → lexLt b a = false
  | [], [] => by simp [lexLt]
  | [], _ :: _ => by simp [lexLt]
  | _ :: _, [] => by simp [lexLt]
  | a :: as, b :: bs => by
      intro h
      by_cases h1 : a.toNat < b.toNat
      · simp [lexLt, Nat.lt_asymm h1, h1]
      · by_cases h2 : b.toNat < a.toNat
        · simp [lexLt, h1, h2] at h
        · have hrec := lexLt_asymm as bs (by simpa [lexLt, h1, h2] using h)
          simp [lexLt, h1, h2, hrec]

/-- Key-order asymmetry, on strings. -/
theorem strLtB_asymm {a b : String} (h : strLtB a b = true) : strLtB b a = false :=
  lexLt_asymm _ _ h

/-- `strLeB` holds when the reverse strict order fails. -/
theorem strLeB_of_not_lt {a b : String} (h : strLtB b a = false) : strLeB a b = true := by
  simp [strLeB, h]

/-- `strLeB` holds on strictly ordered strings. -/
theorem strLeB_of_lt {a b : String} (h : strLtB a b = true) : strLeB a b = true :=
  strLeB_of_not_lt (strLtB_asymm h)

/-- Insertion permutes. -/
theorem insertSorted_perm (p : String × String) (l : List (String × String)) :
    List.Perm (insertSorted p l) (p :: l) := by
  induction l with
  | nil => simp [insertSorted]
  | cons q rest ih =>
      unfold insertSorted
      by_cases hlt : strLtB p.1 q.1 = true
      · simp [hlt]
      · rw [if_neg (by simp [hlt])]
        exact (ih.cons q).trans (List.Perm.swap p q rest)

/-- Sorting permutes. -/
theorem sortByKey_perm (l : List (String × String)) : List.Perm (sortByKey l) l := by
  induction l with
  | nil => rfl
  | cons p rest ih => exact (insertSorted_perm p (sortByKey rest)).trans (ih.cons p)

/-- Inserting into a key-sorted list keeps it key-sorted. -/
theorem chain'_insertSorted (p : String × String) (l : List (String × String))
    (h : List.Chain' (fun a b : String × String => strLeB a.1 b.1 = true) l) :
    List.Chain' (fun a b : String × String => strLeB a.1 b.1 = true) (insertSorted p l) := by
  induction l with
  | nil => simp [insertSorted]
  | cons q rest ih =>
      unfold insertSorted
      by_cases hlt : strLtB p.1 q.1 = true
      · rw [if_pos hlt]
        exact List.chain'_cons.2 ⟨strLeB_of_lt hlt, h⟩
      · rw [if_neg (by simp [hlt])]
        have hq : strLtB p.1 q.1 = false := by simpa using hlt
        apply List.chain'_cons'.2
        refine ⟨?_, ih (List.chain'_cons'.1 h).2⟩
        intro b hb
        cases rest with
        | nil =>
            simp [insertSorted] at hb
            subst hb
            exact strLeB_of_not_lt hq
        | cons r rest2 =>
            unfold insertSorted at hb
            by_cases h2 : strLtB p.1 r.1 = true
            · rw [if_pos h2] at hb
              simp at hb
              subst hb
              exact strLeB_of_not_lt hq
            · rw [if_neg (by simp [h2])] at hb
              simp at hb
              subst hb
              exact (List.chain'_cons.1 h).1

/-- The sorted parameter list is key-sorted. -/
theorem sortByKey_chain' (l : List (String × String)) :
    List.Chain' (fun a b : String × String => strLeB a.1 b.1 = true) (sortByKey l) := by
  induction l with
  | nil => simp [sortByKey]
  | cons p rest ih => exact chain'_insertSorted p (sortByKey rest) ih

/-- Inserting a parameter that sorts strictly below a trailing element keeps
that element last. -/
theorem insertSorted_append_last (p s : String × String) (l : List (String × String))
    (hp : strLtB p.1 s.1 = true) :
    insertSorted p (l ++ [s]) = insertSorted p l ++ [s] := by
  induction l with
  | nil => simp [insertSorted, hp]
  | cons q rest ih =>
      rw [List.cons_append]
      unfold insertSorted
      by_cases hlt : strLtB p.1 q.1 = true
      · rw [if_pos hlt, if_pos hlt]
        rfl
      · rw [if_neg (by simp [hlt]), if_neg (by simp [hlt]), ih]
        rfl

/-- Sorting a list whose keys all sort strictly below a trailing element keeps
that element last. -/
theorem sortByKey_append_last (l : List (String × String)) (s : String × String)
    (hall : ∀ p ∈ l, strLtB p.1 s.1 = true) :
    sortByKey (l ++ [s]) = sortByKey l ++ [s] := by
  induction l with
  | nil => simp [sortByKey, insertSorted]
  | cons q rest ih =>
      rw [List.cons_append]
      simp only [sortByKey]
      rw [ih (fun p hp => hall p (List.mem_cons_of_mem q hp))]
      exact insertSorted_append_last q s (sortByKey rest) (hall q (List.mem_cons_self q rest))

/-- Joining after appending one element appends `&` and the element. -/
theorem joinAmp_append_last (l : List String) (a : String) (h : l ≠ []) :
    joinAmp (l ++ [a]) = joinAmp l ++ "&" ++ a := by
  induction l with
  | nil => exact absurd rfl h
  | cons s rest ih =>
      cases rest with
      | nil => simp [joinAmp]
      | cons t rest2 =>
          rw [List.cons_append]
          simp only [joinAmp]
          simp only [List.append_eq]
          rw [← List.cons_append, ih (by simp)]
          simp only [String.append_assoc]

/-- Every key the builder adds before the signature sorts strictly below
`signature`. -/
theorem baseParams_key_lt_signature (g : Geocoder) (lat lng : Int) :
    ∀ p ∈ baseParams g lat lng, strLtB p.1 "signature" = true := by
  intro p hp
  by_cases hl : g.language = "" <;> rcases hbk : g.businessKey with _ | bk
  · simp [baseParams, hl, hbk] at hp
    rcases hp with rfl | rfl <;> rfl
  · by_cases hch : bk.channel = ""
    · simp [baseParams, hl, hbk, hch] at hp
      rcases hp with rfl | rfl | rfl <;> rfl
    · simp [baseParams, hl, hbk, hch] at hp
      rcases hp with rfl | rfl | rfl | rfl <;> rfl
  · simp [baseParams, hl, hbk] at hp
    rcases hp with rfl | rfl | rfl <;> rfl
  · by_cases hch : bk.channel = ""
    · simp [baseParams, hl, hbk, hch] at hp
      rcases hp with rfl | rfl | rfl | rfl <;> rfl
    · simp [baseParams, hl, hbk, hch] at hp
      rcases hp with rfl | rfl | rfl | rfl | rfl <;> rfl

/-- The builder's parameter list is never empty. -/
theorem sortByKey_baseParams_ne_nil (g : Geocoder) (lat lng : Int) :
    sortByKey (baseParams g lat lng) ≠ [] := by
  intro h
  have hlen := (sortByKey_perm (baseParams g lat lng)).length_eq
  rw [h] at hlen
  simp [baseParams] at hlen

/-- Appending the signature parameter and re-encoding appends
`&signature=<escaped signature>` to the canonical query. -/
theorem encodeQuery_append_signature (g : Geocoder) (lat lng : Int) (sig : String) :
    encodeQuery (baseParams g lat lng ++ [("signature", sig)]) =
      encodeQuery (baseParams g lat lng) ++ "&" ++ ("signature=" ++ queryEscape sig) := by
  unfold encodeQuery
  rw [sortByKey_append_last _ _ (baseParams_key_lt_signature g lat lng)]
  rw [List.map_append]
  simp only [List.map_cons, List.map_nil]
  rw [joinAmp_append_last _ _ (by
        simp only [ne_eq, List.map_eq_nil_iff]
        exact sortByKey_baseParams_ne_nil g lat lng)]
  rfl

/-- `buildURL` success inverted: the URL is the parsed base with the canonical
query extended by the computed signature. -/
theorem buildURL_ok_inv (g : Geocoder) (bk : BusinessKey) (lat lng : Int) (ur : URL)
    (hbk : g.businessKey = some bk) (hok : buildURL g lat lng = Res.ok ur) :
    ∃ sig,
      getSignature bk.signingKey
          ((urlParse g.baseURL).path ++ "?" ++ encodeQuery (baseParams g lat lng)) = some sig ∧
      ur = ⟨(urlParse g.baseURL).schemeHost, (urlParse g.baseURL).path,
            encodeQuery (baseParams g lat lng ++ [("signature", sig)])⟩ := by
  unfold buildURL at hok
  simp only [hbk] at hok
  rcases hget : getSignature bk.signingKey
      ((urlParse g.baseURL).path ++ "?" ++ encodeQuery (baseParams g lat lng)) with _ | sig
  · rw [hget] at hok
    simp at hok
  · rw [hget] at hok
    refine ⟨sig, rfl, ?_⟩
    injection hok with h
    exact h.symm

/-- C2: for every client with credentials and every coordinate pair, the
signature parameter embedded in the URL `buildURL` returns is exactly
`getSignature` of the URL's path, `?`, and the canonical query serialized
without the signature parameter — and the signature is appended as the last
parameter of the transmitted query. -/
theorem buildURL_signature_roundtrip (g : Geocoder) (bk : BusinessKey) (lat lng : Int)
    (ur : URL) (hbk : g.businessKey = some bk) (hok : buildURL g lat lng = Res.ok ur) :
    ∃ sig,
      getSignature bk.signingKey
          (ur.path ++ "?" ++ encodeQuery (baseParams g lat lng)) = some sig ∧
      ur.rawQuery =
        encodeQuery (baseParams g lat lng) ++ "&" ++ ("signature=" ++ queryEscape sig) := by
  obtain ⟨sig, hsig, hur⟩ := buildURL_ok_inv g bk lat lng ur hbk hok
  refine ⟨sig, ?_, ?_⟩
  · rw [hur]
    exact hsig
  · rw [hur]
    exact encodeQuery_append_signature g lat lng sig

/-- C2 witness: the round trip at the test fixture. -/
theorem buildURL_signature_roundtrip_witness :
    ∃ sig,
      getSignature bkeyFix.signingKey
          (urFix.path ++ "?" ++ encodeQuery (baseParams gOQL 4532000000 1267000000)) =
        some sig ∧
      urFix.rawQuery =
        encodeQuery (baseParams gOQL 4532000000 1267000000) ++ "&" ++
          ("signature=" ++ queryEscape sig) :=
  buildURL_signature_roundtrip gOQL bkeyFix 4532000000 1267000000 urFix rfl buildURL_gOQL

/-! ## Decimal-rendering facts -/

/-- Digit characters are never a decimal point. -/
theorem digitChar_ne_dot (d : Nat) : digitChar d ≠ '.' := by
  unfold digitChar
  by_cases h : d < 10
  · interval_cases d <;> decide
  · rw [List.getD_eq_default]
    · decide
    · have h10 : ("0123456789".toList).length = 10 := rfl
      omega

/-- Rendered digits are never a decimal point. -/
theorem natDigits_ne_dot : ∀ fuel n : Nat, ∀ c ∈ natDigits fuel n, c ≠ '.'
  | 0, _ => by simp [natDigits]
  | fuel + 1, n => by
      intro c hc
      unfold natDigits at hc
      by_cases h : n < 10
      · rw [if_pos h] at hc
        simp at hc
        subst hc
        exact digitChar_ne_dot n
      · rw [if_neg h] at hc
        rcases List.mem_append.1 hc with h1 | h2
        · exact natDigits_ne_dot fuel (n / 10) c h1
        · simp at h2
          subst h2
          exact digitChar_ne_dot (n % 10)

/-- The integral rendering contains no decimal point. -/
theorem natRepr_ne_dot (n : Nat) : ∀ c ∈ (natRepr n).toList, c ≠ '.' := by
  intro c hc
  exact natDigits_ne_dot (n + 1) n c hc

/-- The fractional rendering has exactly eight characters. -/
theorem pad8_length (n : Nat) : (pad8 n).toList.length = 8 := by
  show (((("00000000".toList ++ (natRepr n).toList).reverse.take 8).reverse : List Char)).length = 8
  rw [List.length_reverse, List.length_take, List.length_reverse, List.length_append]
  have h8 : ("00000000".toList).length = 8 := rfl
  omega

/-- Dropping over a prefix that the predicate accepts wholesale skips it. -/
theorem dropWhile_append_all {p : Char → Bool} (l1 l2 : List Char)
    (h : ∀ c ∈ l1, p c = true) :
    List.dropWhile p (l1 ++ l2) = List.dropWhile p l2 := by
  induction l1 with
  | nil => rfl
  | cons c rest ih =>
      rw [List.cons_append, List.dropWhile_cons, if_pos (h c (List.mem_cons_self c rest))]
      exact ih (fun x hx => h x (List.mem_cons_of_mem _ hx))

/-- A formatted coordinate always carries exactly eight decimal digits. -/
theorem fracLen_fmt8 (n : Int) : fracLen (fmt8 n) = 8 := by
  unfold fracLen fmt8
  rw [toList_append, toList_append, toList_append, List.append_assoc]
  rw [dropWhile_append_all _ _ (by
        intro c hc
        rcases List.mem_append.1 hc with h1 | h2
        · by_cases hn : n < 0
          · rw [if_pos hn] at h1
            have hm : ("-").toList = ['-'] := rfl
            rw [hm] at h1
            simp at h1
            subst h1
            decide
          · rw [if_neg hn] at h1
            simp at h1
        · have := natRepr_ne_dot (n.natAbs / 100000000) c h2
          simpa using this)]
  have hdot : (".").toList = ['.'] := rfl
  rw [hdot, List.singleton_append, List.dropWhile_cons]
  rw [if_neg (by decide)]
  simpa using pad8_length (n.natAbs % 100000000)

/-- C3 (amended, for the `url.Values` builder): the transmitted query is the
`&`-join of `key=value` pairs, both sides percent-encoded, over the sorted
parameter list; the emitted key order is ascending; the parameters include
`latlng` as the two coordinates comma-separated, each with exactly eight
decimal digits, and `sensor=false`; and `language` is present exactly when
configured non-empty. -/
theorem buildURL_wire_format (g : Geocoder) (bk : BusinessKey) (lat lng : Int) (ur : URL)
    (hbk : g.businessKey = some bk) (hok : buildURL g lat lng = Res.ok ur) :
    ∃ sig,
      ur.rawQuery =
        joinAmp ((sortByKey (baseParams g lat lng ++ [("signature", sig)])).map
          (fun p => queryEscape p.1 ++ "=" ++ queryEscape p.2)) ∧
      List.Chain' (fun a b => strLeB a b = true)
        ((sortByKey (baseParams g lat lng ++ [("signature", sig)])).map Prod.fst) ∧
      ("latlng", fmt8 lat ++ "," ++ fmt8 lng) ∈ baseParams g lat lng ∧
      ("sensor", "false") ∈ baseParams g lat lng ∧
      ((("language", g.language) ∈ baseParams g lat lng) ↔ g.language ≠ "") ∧
      fracLen (fmt8 lat) = 8 ∧ fracLen (fmt8 lng) = 8 := by
  obtain ⟨sig, hsig, hur⟩ := buildURL_ok_inv g bk lat lng ur hbk hok
  refine ⟨sig, ?_, ?_, ?_, ?_, ?_, fracLen_fmt8 lat, fracLen_fmt8 lng⟩
  · rw [hur]
    rfl
  · rw [List.chain'_map]
    exact sortByKey_chain' _
  · simp [baseParams]
  · simp [baseParams]
  · constructor
    · intro hmem hempty
      rw [hempty] at hmem
      by_cases hch : bk.channel = "" <;> simp [baseParams, hempty, hbk, hch] at hmem
    · intro hne
      simp [baseParams, hne]

/-- C3 witness: the wire format at the test fixture. -/
theorem buildURL_wire_format_witness :
    ∃ sig,
      urFix.rawQuery =
        joinAmp ((sortByKey (baseParams gOQL 4532000000 1267000000 ++ [("signature", sig)])).map
          (fun p => queryEscape p.1 ++ "=" ++ queryEscape p.2)) ∧
      List.Chain' (fun a b => strLeB a b = true)
        ((sortByKey (baseParams gOQL 4532000000 1267000000 ++
            [("signature", sig)])).map Prod.fst) ∧
      ("latlng", fmt8 4532000000 ++ "," ++ fmt8 1267000000) ∈
        baseParams gOQL 4532000000 1267000000 ∧
      ("sensor", "false") ∈ baseParams gOQL 4532000000 1267000000 ∧
      ((("language", gOQL.language) ∈ baseParams gOQL 4532000000 1267000000) ↔
        gOQL.language ≠ "") ∧
      fracLen (fmt8 4532000000) = 8 ∧ fracLen (fmt8 1267000000) = 8 :=
  buildURL_wire_format gOQL bkeyFix 4532000000 1267000000 urFix rfl buildURL_gOQL

set_option maxRecDepth 100000 in
/-- C3 counterexample: the legacy string-concatenation builder of `geoc.go`
emits the parameters in insertion order `latlng`, `sensor`, `language`,
`client`, `channel`, which is not ascending key order. -/
theorem legacy_buildURL_unsorted :
    queryKeys (Legacy.buildURL gOQL 0 0) =
      ["latlng", "sensor", "language", "client", "channel"] ∧
    ¬ List.Chain' (fun a b => strLeB a b = true)
        (queryKeys (Legacy.buildURL gOQL 0 0)) := by
  have h : queryKeys (Legacy.buildURL gOQL 0 0) =
      ["latlng", "sensor", "language", "client", "channel"] := by rfl
  refine ⟨h, ?_⟩
  rw [h]
  intro hch
  have h2 := (List.chain'_cons.1 (List.chain'_cons.1 hch).2).1
  have h3 : strLeB "sensor" "language" = false := rfl
  rw [h3] at h2
  exact absurd h2 (by decide)

/-! ## The limiter invariant -/

/-- Observer events carry no rate mutation. -/
theorem rateEvents_obsEvents (g : Geocoder) : rateEvents (obsEvents g) = [] := by
  unfold rateEvents obsEvents
  cases hobs : g.observer <;> simp [isSetLimit]

/-- Rate mutations of a trace starting with the observer events. -/
theorem rateEvents_obs_append (g : Geocoder) (l : List Event) :
    rateEvents (obsEvents g ++ l) = rateEvents l := by
  unfold rateEvents
  rw [List.filter_append]
  have h := rateEvents_obsEvents g
  unfold rateEvents at h
  rw [h, List.nil_append]

/-- One call either leaves the client state unchanged with no rate mutation,
or (on the cooldown path) sets the rate to `0` and back to `rps`, ending with
the limit restored to `rps`. -/
theorem RG_step_shape (g : Geocoder) (ctx : Bool) (lat lng : Int) :
    ((ReverseGeocode g ctx lat lng).2.1 = g ∧
      rateEvents (ReverseGeocode g ctx lat lng).2.2 = []) ∨
    ((ReverseGeocode g ctx lat lng).2.1 = setRate g g.rps ∧
      rateEvents (ReverseGeocode g ctx lat lng).2.2 =
        [Event.setLimit 0, Event.setLimit g.rps]) := by
  unfold ReverseGeocode
  cases ctx
  case true => left; simp [rateEvents]
  case false =>
  simp only [Bool.false_eq_true, if_false]
  split
  · left; exact ⟨rfl, rfl⟩
  · left; exact ⟨rfl, rfl⟩
  · split
    · left; exact ⟨rfl, rfl⟩
    · split
      · left; exact ⟨rfl, rateEvents_obsEvents g⟩
      · left; exact ⟨rfl, rateEvents_obsEvents g⟩
      · split
        · right
          refine ⟨rfl, ?_⟩
          show rateEvents (obsEvents g ++
              [Event.setLimit 0, Event.sleep g.overQuerySleepDuration, Event.setLimit g.rps]) =
            [Event.setLimit 0, Event.setLimit g.rps]
          rw [rateEvents_obs_append]
          simp [rateEvents, isSetLimit]
        · left; exact ⟨rfl, rateEvents_obsEvents g⟩

/-- Every reachable client state carries the configured positive rate and
burst `1`. -/
theorem reachable_strong (g : Geocoder) (h : Reachable g) :
    g.limiter.limit = g.rps ∧ 0 < g.rps ∧ g.limiter.burst = 1 := by
  induction h with
  | init bkey baseURL language client rps d obs g0 hnew =>
      unfold NewGeocoder at hnew
      rcases bkey with _ | bk
      · simp at hnew
      · by_cases hU : baseURL = ""
        · simp [hU] at hnew
        · rcases client with _ | c
          · simp [hU] at hnew
          · by_cases hr : rps ≤ 0
            · simp [hU, hr] at hnew
            · simp [hU, hr] at hnew
              subst hnew
              refine ⟨rfl, ?_, rfl⟩
              show (0 : Int) < rps
              omega
  | step g0 ctx lat lng hre ih =>
      rcases RG_step_shape g0 ctx lat lng with ⟨h1, _⟩ | ⟨h1, _⟩
      · rw [h1]; exact ih
      · rw [h1]
        exact ⟨rfl, ih.2.1, ih.2.2⟩

/-- C8: at every reachable client state the limiter's rate is the configured
`rps` or `0` (it is in fact always restored to `rps`), never negative, the
burst is `1`, and the only rate mutations any call performs are the cooldown
pair — set to `0`, restore to `rps`. -/
theorem limiter_rate_invariant (g : Geocoder) (h : Reachable g) :
    (g.limiter.limit = g.rps ∨ g.limiter.limit = 0) ∧
    0 ≤ g.limiter.limit ∧
    g.limiter.burst = 1 ∧
    ∀ ctx lat lng,
      rateEvents (ReverseGeocode g ctx lat lng).2.2 = [] ∨
      rateEvents (ReverseGeocode g ctx lat lng).2.2 =
        [Event.setLimit 0, Event.setLimit g.rps] := by
  obtain ⟨h1, h2, h3⟩ := reachable_strong g h
  refine ⟨Or.inl h1, by rw [h1]; omega, h3, ?_⟩
  intro ctx lat lng
  rcases RG_step_shape g ctx lat lng with ⟨_, h4⟩ | ⟨_, h4⟩
  · exact Or.inl h4
  · exact Or.inr h4

/-- C8 witness: a freshly constructed client satisfies the invariant and a
concrete call performs an admissible rate-mutation trace. -/
theorem limiter_rate_invariant_witness :
    (gOK.limiter.limit = gOK.rps ∨ gOK.limiter.limit = 0) ∧
    (rateEvents (ReverseGeocode gOK false 0 0).2.2 = [] ∨
      rateEvents (ReverseGeocode gOK false 0 0).2.2 =
        [Event.setLimit 0, Event.setLimit gOK.rps]) := by
  have h := limiter_rate_invariant gOK
    (Reachable.init (some bkeyFix) "https://maps.googleapis.com/maps/api/geocode/json" "en"
      (some (fun _ => Except.ok (Body.jresp respOK))) 5 100000000 false gOK rfl)
  exact ⟨h.1, h.2.2.2 false 0 0⟩

end Geocoder
